import Mathlib

/-!
# Verification of `@softwareventures/format-timestamp`

A shallow embedding of `src/index.ts` of the `format-timestamp` library, and
proofs of the specified properties of its formatters and template composers.

Modelling conventions:
* JavaScript numbers holding calendar fields (`year`, `month`, `day`, `hours`,
  `minutes`) are modelled as `ℤ`; the real-valued `seconds` field is modelled
  as `ℚ`.  `Math.floor` on a non-negative rational is `Int.floor`.
* `String(n)` on an integer is `Int.repr` / `Nat.repr`;
  `String.prototype.padStart(n, "0")` is left-padding of the character list;
  `s.substr(0, 2)` / `s.substr(2)` are `List.take 2` / `List.drop 2` on the
  character list (all strings involved are ASCII).
* JavaScript `%` on numbers is the truncated remainder `Int.tmod`.
* `formatters[i]?.(timestamp)` is an optional lookup: `Array.prototype.join`
  renders the `undefined` produced by an out-of-range index as `""`.
* The host `Date` object (`src/js-date`, not vendored under `src/`) and the
  `normalize` routine of the external `@softwareventures/timestamp` package
  are kept abstract: definitions that need them take them as parameters, and
  theorems assume only the contracts the specification states for them.
-/

namespace FormatTimestamp

/-- `String.prototype.padStart(n, c)`: left-pad `s` with `c` up to length `n`
(a string already at least `n` long is returned unchanged). -/
def padStart (s : String) (n : ℕ) (c : Char) : String :=
  ⟨s.data.leftpad n c⟩

/-- A timestamp record: `year`, `month`, `day`, `hours`, `minutes` are
integral JavaScript numbers, `seconds` is real-valued (may carry a
fractional part). -/
structure Timestamp where
  year : ℤ
  month : ℤ
  day : ℤ
  hours : ℤ
  minutes : ℤ
  seconds : ℚ
deriving DecidableEq

/-- `export type TimestampFormatter = (timestamp: Timestamp) => string` --
here applied to the full record; the structurally-typed field formatters
below take the individual field values they read. -/
abbrev TimestampFormatter : Type := Timestamp → String

/-- `hours2` (src/index.ts): `String(timestamp.hours).padStart(2, "0")`. -/
def hours2 (hours : ℤ) : String :=
  padStart hours.repr 2 '0'

/-- `hours12` (src/index.ts): `String((12 + (timestamp.hours % 12)) % 12)`,
with `%` the JavaScript truncated remainder. -/
def hours12 (hours : ℤ) : String :=
  ((12 + hours.tmod 12).tmod 12).repr

/-- `hours122` (src/index.ts):
`String((12 + (timestamp.hours % 12)) % 12).padStart(2, "0")`. -/
def hours122 (hours : ℤ) : String :=
  padStart ((12 + hours.tmod 12).tmod 12).repr 2 '0'

/-- `amPm` (src/index.ts): `timestamp.hours < 12 ? "AM" : "PM"`. -/
def amPm (hours : ℤ) : String :=
  if hours < 12 then "AM" else "PM"

/-- `minutes2` (src/index.ts): `String(timestamp.minutes).padStart(2, "0")`. -/
def minutes2 (minutes : ℤ) : String :=
  padStart minutes.repr 2 '0'

/-- `floorSeconds2` (src/index.ts):
`String(Math.floor(timestamp.seconds)).padStart(2, "0")`. -/
def floorSeconds2 (seconds : ℚ) : String :=
  padStart (⌊seconds⌋ : ℤ).repr 2 '0'

/-- `secondsMs` (src/index.ts):
`const s = String(Math.floor(timestamp.seconds * 1000)).padStart(5, "0");`
`return s.substr(0, 2) + "." + s.substr(2);`. -/
def secondsMs (seconds : ℚ) : String :=
  let s := padStart (⌊seconds * 1000⌋ : ℤ).repr 5 '0'
  ⟨s.data.take 2⟩ ++ "." ++ ⟨s.data.drop 2⟩

/-- Modelled from the spec: `year4` is re-exported from the external
`@softwareventures/format-date` package (not part of this repository);
per §4.1 it zero-pads `year` on the left to at least 4 digits and never
truncates years of more than 4 digits. -/
def year4 (year : ℤ) : String :=
  padStart year.repr 4 '0'

/-- Modelled from the spec: `month2` is re-exported from the external
`@softwareventures/format-date` package (not part of this repository);
per §4.1 it zero-pads `month` to 2 digits. -/
def month2 (month : ℤ) : String :=
  padStart month.repr 2 '0'

/-- Modelled from the spec: `day2` is re-exported from the external
`@softwareventures/format-date` package (not part of this repository);
per §4.1 it zero-pads `day` to 2 digits. -/
def day2 (day : ℤ) : String :=
  padStart day.repr 2 '0'

/-- `concatMap` from `@softwareventures/array`: map each element together
with its index to a list, and concatenate the results. -/
def concatMap {α β : Type} (l : List α) (f : α → ℕ → List β) : List β :=
  (l.enum.map fun p => f p.2 p.1).flatten

/-- `Array.prototype.join("")` on an array whose elements may be
`undefined` (from `formatters[i]?.(timestamp)`): `undefined` is rendered
as the empty string. -/
def joinUndef (l : List (Option String)) : String :=
  String.join (l.map fun o => o.getD "")

/-- `timestampTemplate` (src/index.ts): the composed formatter maps a
timestamp to
`concatMap(texts, (text, i) => [text, formatters[i]?.(timestamp)]).join("")`. -/
def timestampTemplate (texts : List String) (formatters : List TimestampFormatter) :
    TimestampFormatter :=
  fun timestamp =>
    joinUndef (concatMap texts fun text i => [some text, (formatters[i]?).map fun f => f timestamp])

/-- `iso8601` (src/index.ts):
``timestampTemplate`${year4}-${month2}-${day2}T${hours2}:${minutes2}:${floorSeconds2}Z` ``,
i.e. the literal segments `"", "-", "-", "T", ":", ":", "Z"` interleaved with
the six field formatters. -/
def iso8601 : TimestampFormatter :=
  timestampTemplate ["", "-", "-", "T", ":", ":", "Z"]
    [fun t => year4 t.year, fun t => month2 t.month, fun t => day2 t.day,
      fun t => hours2 t.hours, fun t => minutes2 t.minutes, fun t => floorSeconds2 t.seconds]

/-- The UTC-denominated fields written into the host `Date` object by
`deviceLocalTimestampTemplate`: `setUTCFullYear(year, month - 1, day)` and
`setUTCHours(hours, minutes, seconds, ms)`.  JavaScript `Date` months are
0-based, hence `month0`. -/
structure UtcFields where
  year : ℤ
  month0 : ℤ
  day : ℤ
  hours : ℤ
  minutes : ℤ
  seconds : ℤ
  ms : ℚ

/-- The local-timezone calendar fields read back from the host `Date`
object: `getFullYear`, `getMonth` (0-based), `getDate`, `getHours`,
`getMinutes`, `getSeconds`, `getMilliseconds`. -/
structure LocalFields where
  year : ℤ
  month0 : ℤ
  day : ℤ
  hours : ℤ
  minutes : ℤ
  seconds : ℤ
  ms : ℚ

/-- Modelled from the spec: the host local-calendar primitive (the `JsDate`
wrapper of `src/js-date`, which is not under `src/`, together with the
host's timezone configuration behind it, §4.3 step 3).  It is the opaque
function from the UTC fields stored into the `Date` object to the
local-timezone fields read back from it. -/
abbrev JsDateModel : Type := UtcFields → LocalFields

/-- Modelled from the spec: `normalize` from the external
`@softwareventures/timestamp` package -- the routine that carries
overflowed field values into higher fields and restores the invariant
`seconds ∈ [0, 60)`.  Kept abstract; theorems assume only the contract
stated in the spec. -/
abbrev Normalizer : Type := Timestamp → Timestamp

/-- The Local-Time Converter of §4.3 (`toLocal`): split `seconds` into the
floored whole part and the millisecond remainder, feed the fields through
the host local-calendar primitive, reassemble, and normalize. -/
def toLocal (host : JsDateModel) (normalize : Normalizer) (ts : Timestamp) : Timestamp :=
  let seconds : ℤ := ⌊ts.seconds⌋
  let ms : ℚ := (ts.seconds - (seconds : ℚ)) * 1000
  let lf := host ⟨ts.year, ts.month - 1, ts.day, ts.hours, ts.minutes, seconds, ms⟩
  normalize ⟨lf.year, lf.month0 + 1, lf.day, lf.hours, lf.minutes, (lf.seconds : ℚ) + lf.ms / 1000⟩

/-- `deviceLocalTimestampTemplate` (src/index.ts): convert the timestamp to
the device's local timezone through the host `Date` object and `normalize`,
then interleave exactly as `timestampTemplate` does. -/
def deviceLocalTimestampTemplate (host : JsDateModel) (normalize : Normalizer)
    (texts : List String) (formatters : List TimestampFormatter) : TimestampFormatter :=
  fun timestamp =>
    let seconds : ℤ := ⌊timestamp.seconds⌋
    let ms : ℚ := (timestamp.seconds - (seconds : ℚ)) * 1000
    let lf := host ⟨timestamp.year, timestamp.month - 1, timestamp.day,
      timestamp.hours, timestamp.minutes, seconds, ms⟩
    let localTs : Timestamp := normalize
      ⟨lf.year, lf.month0 + 1, lf.day, lf.hours, lf.minutes, (lf.seconds : ℚ) + lf.ms / 1000⟩
    joinUndef (concatMap texts fun text i => [some text, (formatters[i]?).map fun f => f localTs])

/-- The interleaving a composed template actually performs: text segments in
order, each followed by the corresponding formatter's output when one exists
(an out-of-range formatter index contributes nothing). -/
def interleaveOpt (texts : List String) (formatters : List TimestampFormatter)
    (ts : Timestamp) : String :=
  match texts, formatters with
  | [], _ => ""
  | t :: rest, [] => t ++ interleaveOpt rest [] ts
  | t :: rest, f :: fs => t ++ (f ts ++ interleaveOpt rest fs ts)

/-- The interleaving described by the spec (§4.2): with segments
`s₀, …, sₙ` and formatters `f₀, …, fₙ₋₁`, produce
`s₀ ++ f₀ ts ++ s₁ ++ f₁ ts ++ … ++ sₙ`.  Only the cases reachable under
the precondition `texts.length = formatters.length + 1` matter; the others
are given default values to make the function total. -/
def specInterleave (texts : List String) (formatters : List TimestampFormatter)
    (ts : Timestamp) : String :=
  match texts, formatters with
  | [], _ => ""
  | t :: _, [] => t
  | t :: rest, f :: fs => t ++ (f ts ++ specInterleave rest fs ts)

/-- The `k`-digit zero-padded big-endian decimal expansion of `n`. -/
def padDigits : ℕ → ℕ → List Char
  | 0, _ => []
  | k + 1, n => padDigits k (n / 10) ++ [Nat.digitChar (n % 10)]

/-! ## String and interleaving helper lemmas -/

theorem string_foldl_append (l : List String) :
    ∀ a : String, List.foldl (fun r s => r ++ s) a l = a ++ List.foldl (fun r s => r ++ s) "" l := by
  induction l with
  | nil => intro a; simp [List.foldl]
  | cons x xs ih =>
    intro a
    simp only [List.foldl]
    rw [ih (a ++ x), ih ("" ++ x), String.empty_append, String.append_assoc]

theorem string_join_cons (s : String) (l : List String) :
    String.join (s :: l) = s ++ String.join l := by
  simp only [String.join, List.foldl]
  rw [string_foldl_append l ("" ++ s), String.empty_append]

theorem joinUndef_nil : joinUndef [] = "" := rfl

theorem joinUndef_cons (o : Option String) (l : List (Option String)) :
    joinUndef (o :: l) = o.getD "" ++ joinUndef l := by
  simp only [joinUndef, List.map]
  exact string_join_cons _ _

theorem timestampTemplate_aux (ts : Timestamp) :
    ∀ (texts : List String) (n : ℕ) (fs : List TimestampFormatter),
      joinUndef (((List.enumFrom n texts).map
          fun p => [some p.2, (fs[p.1]?).map fun f => f ts]).flatten)
        = interleaveOpt texts (fs.drop n) ts := by
  intro texts
  induction texts with
  | nil => intro n fs; simp [List.enumFrom, joinUndef, String.join, interleaveOpt]
  | cons t rest ih =>
    intro n fs
    have hdrop : fs.drop (n + 1) = (fs.drop n).drop 1 := by
      rw [List.drop_drop]
    have hget : fs[n]? = (fs.drop n)[0]? := by
      rw [List.getElem?_drop]
      simp
    simp only [List.enumFrom, List.map, List.flatten]
    rw [List.cons_append, List.singleton_append, joinUndef_cons, joinUndef_cons,
      ih (n + 1) fs]
    cases h : fs.drop n with
    | nil =>
      rw [hdrop, h]
      rw [h] at hget
      simp only [hget, List.getElem?_nil, Option.map_none', Option.getD_none,
        Option.getD_some, List.drop_nil]
      rw [String.empty_append]
      rfl
    | cons f fsr =>
      rw [hdrop, h]
      rw [h] at hget
      simp only [hget, List.getElem?_cons_zero, Option.map_some', Option.getD_some,
        List.drop_succ_cons, List.drop_zero]
      rfl

theorem timestampTemplate_eq_interleaveOpt (texts : List String)
    (formatters : List TimestampFormatter) (ts : Timestamp) :
    timestampTemplate texts formatters ts = interleaveOpt texts formatters ts := by
  have h := timestampTemplate_aux ts texts 0 formatters
  simpa [timestampTemplate, concatMap, List.enum] using h

theorem interleaveOpt_no_formatters (ts : Timestamp) (texts : List String) :
    interleaveOpt texts [] ts = String.join texts := by
  induction texts with
  | nil => rfl
  | cons t rest ih => rw [interleaveOpt, ih, string_join_cons]

/-! ## Decimal digit-string lemmas

`String(n)` is modelled by `Nat.repr`; the lemmas below characterise the
zero-padded decimal representation so that the split performed by
`secondsMs` can be reasoned about. -/

theorem int_repr_of_nonneg (m : ℤ) (h : 0 ≤ m) : m.repr = Nat.repr m.toNat := by
  obtain ⟨k, rfl⟩ := Int.eq_ofNat_of_zero_le h
  rfl

theorem toDigitsCore_shift (b : ℕ) :
    ∀ (f n : ℕ) (l : List Char), Nat.toDigitsCore b f n l = Nat.toDigitsCore b f n [] ++ l := by
  intro f
  induction f with
  | zero => intro n l; simp [Nat.toDigitsCore]
  | succ f ih =>
    intro n l
    simp only [Nat.toDigitsCore]
    by_cases h : n / b = 0
    · simp [h]
    · simp only [h, if_false]
      rw [ih (n / b) ((n % b).digitChar :: l), ih (n / b) [(n % b).digitChar],
        List.append_assoc, List.singleton_append]

theorem toDigitsCore_fuel :
    ∀ (f f' n : ℕ) (l : List Char), n < f → n < f' →
      Nat.toDigitsCore 10 f n l = Nat.toDigitsCore 10 f' n l := by
  intro f
  induction f with
  | zero => intro f' n l h; omega
  | succ f ih =>
    intro f' n l h h'
    cases f' with
    | zero => omega
    | succ f' =>
      simp only [Nat.toDigitsCore]
      by_cases hd : n / 10 = 0
      · simp [hd]
      · simp only [hd, if_false]
        have hn : 0 < n := by
          rcases Nat.eq_zero_or_pos n with h0 | h0
          · subst h0; simp at hd
          · exact h0
        have hlt : n / 10 < n := Nat.div_lt_self hn (by norm_num)
        exact ih f' (n / 10) _ (by omega) (by omega)

theorem repr_data_single {n : ℕ} (h : n < 10) :
    (Nat.repr n).data = [Nat.digitChar n] := by
  simp [Nat.repr, Nat.toDigits, List.asString, Nat.toDigitsCore,
    Nat.div_eq_of_lt h, Nat.mod_eq_of_lt h]

theorem repr_data_cons {n : ℕ} (h : 10 ≤ n) :
    (Nat.repr n).data = (Nat.repr (n / 10)).data ++ [Nat.digitChar (n % 10)] := by
  have hd : n / 10 ≠ 0 := by
    intro h0
    have := Nat.div_eq_of_lt (show n < 10 by omega)
    omega
  show Nat.toDigitsCore 10 (n + 1) n [] = Nat.toDigitsCore 10 (n / 10 + 1) (n / 10) [] ++ _
  rw [show Nat.toDigitsCore 10 (n + 1) n [] =
      Nat.toDigitsCore 10 n (n / 10) [(n % 10).digitChar] by
    simp only [Nat.toDigitsCore]
    simp [hd]]
  rw [toDigitsCore_shift 10 n (n / 10) [(n % 10).digitChar]]
  have hlt : n / 10 < n := Nat.div_lt_self (by omega) (by norm_num)
  rw [toDigitsCore_fuel n (n / 10 + 1) (n / 10) [] (by omega) (by omega)]

theorem padDigits_length (k : ℕ) : ∀ n : ℕ, (padDigits k n).length = k := by
  induction k with
  | zero => intro n; rfl
  | succ k ih => intro n; simp [padDigits, ih]

theorem padDigits_zero (k : ℕ) : padDigits k 0 = List.replicate k '0' := by
  induction k with
  | zero => rfl
  | succ k ih =>
    rw [padDigits, Nat.zero_div, ih, List.replicate_succ']
    rfl

theorem digitChar_isDigit {m : ℕ} (h : m < 10) : (Nat.digitChar m).isDigit = true := by
  interval_cases m <;> decide

theorem padDigits_all_digits (k : ℕ) :
    ∀ n : ℕ, ∀ c ∈ padDigits k n, c.isDigit = true := by
  induction k with
  | zero => intro n c hc; simp [padDigits] at hc
  | succ k ih =>
    intro n c hc
    rw [padDigits, List.mem_append] at hc
    rcases hc with hc | hc
    · exact ih (n / 10) c hc
    · rw [List.mem_singleton] at hc
      subst hc
      exact digitChar_isDigit (Nat.mod_lt n (by norm_num))

theorem repr_leftpad {k : ℕ} : ∀ {n : ℕ}, 0 < k → n < 10 ^ k →
    (Nat.repr n).data.leftpad k '0' = padDigits k n := by
  induction k with
  | zero => intro n h; omega
  | succ k ih =>
    intro n _ hn
    by_cases hsmall : n < 10
    · rw [repr_data_single hsmall, padDigits,
        Nat.div_eq_of_lt hsmall, Nat.mod_eq_of_lt hsmall, padDigits_zero]
      simp [List.leftpad]
    · push_neg at hsmall
      have hk : 0 < k := by
        by_contra h0
        have : k = 0 := by omega
        subst this
        simp at hn
        omega
      have hdiv : n / 10 < 10 ^ k := by
        rw [Nat.div_lt_iff_lt_mul (by norm_num : (0:ℕ) < 10)]
        calc n < 10 ^ (k + 1) := hn
          _ = 10 ^ k * 10 := by rw [pow_succ]
      rw [repr_data_cons hsmall, padDigits, ← ih hk hdiv]
      simp only [List.leftpad, List.length_append, List.length_singleton]
      rw [List.append_assoc,
        show k + 1 - ((Nat.repr (n / 10)).data.length + 1)
          = k - (Nat.repr (n / 10)).data.length by omega]

theorem padDigits_split (j : ℕ) :
    ∀ (k n : ℕ), padDigits (j + k) n = padDigits j (n / 10 ^ k) ++ padDigits k (n % 10 ^ k) := by
  intro k
  induction k with
  | zero => intro n; simp [padDigits, Nat.mod_one]
  | succ k ih =>
    intro n
    have h1 : n / 10 / 10 ^ k = n / 10 ^ (k + 1) := by
      rw [Nat.div_div_eq_div_mul, pow_succ, mul_comm]
    have h2 : n % 10 ^ (k + 1) / 10 = n / 10 % 10 ^ k := by
      rw [pow_succ, mul_comm (10 ^ k) 10, Nat.mod_mul_right_div_self]
    have h3 : n % 10 ^ (k + 1) % 10 = n % 10 := by
      exact Nat.mod_mod_of_dvd n (dvd_pow_self 10 (Nat.succ_ne_zero k))
    show padDigits (j + k + 1) n = _
    rw [padDigits, ih (n / 10), padDigits, h1, h2, h3, List.append_assoc]

theorem secondsMs_split (s : ℚ) (h0 : 0 ≤ s) (h1 : s < 100) :
    secondsMs s = (⟨padDigits 2 ((⌊s * 1000⌋).toNat / 1000)⟩ : String) ++ "."
      ++ (⟨padDigits 3 ((⌊s * 1000⌋).toNat % 1000)⟩ : String) := by
  have hfl : 0 ≤ ⌊s * 1000⌋ := Int.floor_nonneg.mpr (by positivity)
  have hfl2 : ⌊s * 1000⌋ < 100000 := by
    rw [Int.floor_lt]
    push_cast
    linarith
  have hn : (⌊s * 1000⌋).toNat < 100000 := by omega
  have hrepr : (⌊s * 1000⌋).repr = Nat.repr (⌊s * 1000⌋).toNat := int_repr_of_nonneg _ hfl
  have hpad : (Nat.repr (⌊s * 1000⌋).toNat).data.leftpad 5 '0'
      = padDigits 2 ((⌊s * 1000⌋).toNat / 1000) ++ padDigits 3 ((⌊s * 1000⌋).toNat % 1000) := by
    rw [repr_leftpad (by norm_num) (show (⌊s * 1000⌋).toNat < 10 ^ 5 by norm_num; omega)]
    have h := padDigits_split 2 3 (⌊s * 1000⌋).toNat
    norm_num at h
    exact h
  show (⟨((padStart (⌊s * 1000⌋).repr 5 '0').data.take 2 : List Char)⟩ : String) ++ "."
      ++ (⟨((padStart (⌊s * 1000⌋).repr 5 '0').data.drop 2 : List Char)⟩ : String) = _
  have hdata : (padStart (⌊s * 1000⌋).repr 5 '0').data
      = padDigits 2 ((⌊s * 1000⌋).toNat / 1000) ++ padDigits 3 ((⌊s * 1000⌋).toNat % 1000) := by
    show (⌊s * 1000⌋).repr.data.leftpad 5 '0' = _
    rw [hrepr, hpad]
  rw [hdata]
  rw [List.take_left' (padDigits_length 2 _), List.drop_left' (padDigits_length 2 _)]

theorem interleaveOpt_eq_spec (ts : Timestamp) :
    ∀ (texts : List String) (formatters : List TimestampFormatter),
      texts.length = formatters.length + 1 →
      interleaveOpt texts formatters ts = specInterleave texts formatters ts := by
  intro texts
  induction texts with
  | nil => intro fs h; simp at h
  | cons t rest ih =>
    intro fs h
    cases fs with
    | nil =>
      have hr : rest = [] := by
        simp only [List.length_cons, List.length_nil] at h
        exact List.eq_nil_of_length_eq_zero (by omega)
      subst hr
      simp [interleaveOpt, specInterleave, String.append_empty]
    | cons f fsr =>
      simp only [List.length_cons] at h
      simp only [interleaveOpt, specInterleave]
      rw [ih fsr (by omega)]

/-! ## Claims -/

/-- **C5**: for every list of literal segments whose length is the number of
formatters plus one, and every timestamp, the formatter built by
`timestampTemplate` returns exactly the interleaving
`segment[0] ++ formatter[0](ts) ++ segment[1] ++ … ++ segment[n]`, each
formatter invoked on the timestamp in template order and all parts
concatenated in order. -/
theorem timestampTemplate_interleaves (texts : List String)
    (formatters : List TimestampFormatter)
    (hlen : texts.length = formatters.length + 1) (ts : Timestamp) :
    timestampTemplate texts formatters ts = specInterleave texts formatters ts := by
  rw [timestampTemplate_eq_interleaveOpt]
  exact interleaveOpt_eq_spec ts texts formatters hlen

/-- Witness for **C5** at a concrete two-segment template. -/
theorem timestampTemplate_interleaves_witness :
    (["[", "]"] : List String).length
        = ([fun t => hours2 t.hours] : List TimestampFormatter).length + 1
      ∧ timestampTemplate ["[", "]"] [fun t => hours2 t.hours] ⟨2021, 5, 1, 11, 58, 0⟩
          = specInterleave ["[", "]"] [fun t => hours2 t.hours] ⟨2021, 5, 1, 11, 58, 0⟩ :=
  ⟨rfl, timestampTemplate_interleaves ["[", "]"] [fun t => hours2 t.hours] rfl _⟩

/-- **C6** (counterexample): calling `timestampTemplate` with three literal
segments and zero formatters -- violating the precondition
`texts.length = formatters.length + 1` -- signals nothing: composition
succeeds and the composed formatter returns the plain string `"abc"`, so the
violation is silently ignored rather than raised as a fatal contract
violation. -/
theorem timestampTemplate_mismatch_counterexample :
    (["a", "b", "c"] : List String).length
        ≠ ([] : List TimestampFormatter).length + 1
      ∧ timestampTemplate ["a", "b", "c"] [] ⟨2021, 5, 1, 11, 58, 0⟩ = "abc" := by
  constructor
  · decide
  · decide

/-- **C6** (amended): `timestampTemplate` performs no length check at
composition time or formatting time; with a mismatched template the missing
formatters simply contribute nothing (an out-of-range `formatters[i]`
is `undefined`, which `join` renders as the empty string), so with zero
formatters the composed formatter returns the bare concatenation of the
literal segments. -/
theorem timestampTemplate_mismatch_silent (texts : List String) (ts : Timestamp) :
    timestampTemplate texts [] ts = String.join texts := by
  rw [timestampTemplate_eq_interleaveOpt, interleaveOpt_no_formatters]

/-- **C8**: every formatter built by `timestampTemplate` is deterministic
and side-effect-free: two invocations on equal timestamps return identical
strings.  (The embedding is a pure function of the template and the
timestamp, reflecting that the source closure reads no hidden state.) -/
theorem timestampTemplate_deterministic (texts : List String)
    (formatters : List TimestampFormatter) (ts1 ts2 : Timestamp) (h : ts1 = ts2) :
    timestampTemplate texts formatters ts1 = timestampTemplate texts formatters ts2 := by
  rw [h]

/-- Witness for **C8** at a concrete template and timestamp. -/
theorem timestampTemplate_deterministic_witness :
    timestampTemplate ["", "h"] [fun t => hours2 t.hours] ⟨2021, 5, 1, 11, 58, 0⟩
      = timestampTemplate ["", "h"] [fun t => hours2 t.hours] ⟨2021, 5, 1, 11, 58, 0⟩ :=
  timestampTemplate_deterministic _ _ _ _ rfl

/-- **C9**: `amPm` returns `"AM"` for every hour in `0..11` and `"PM"` for
every hour in `12..23`; in particular midnight (hour 0) is AM and noon
(hour 12) is PM. -/
theorem amPm_ranges (h : ℤ) :
    (0 ≤ h → h ≤ 11 → amPm h = "AM") ∧ (12 ≤ h → h ≤ 23 → amPm h = "PM") := by
  constructor
  · intro _ h2
    unfold amPm
    rw [if_pos (by omega)]
  · intro h2 _
    unfold amPm
    rw [if_neg (by omega)]

/-- Witness for **C9** at midnight and noon. -/
theorem amPm_ranges_witness : amPm 0 = "AM" ∧ amPm 12 = "PM" :=
  ⟨(amPm_ranges 0).1 (by norm_num) (by norm_num),
    (amPm_ranges 12).2 (by norm_num) (by norm_num)⟩

/-- **C3** (evaluation at the failing inputs): the formula
`(12 + (hours % 12)) % 12` implemented by `hours12`/`hours122` collapses to
`hours % 12`, so hour 0 renders as `"0"` (not `"12"` as claimed) and hour 12
renders as `"0"` (not `"12"`); hours 13 and 23 do render `"1"`/`"01"` and
`"11"` as claimed. -/
theorem hours12_eval_at_bug :
    hours12 0 = "0" ∧ hours122 0 = "00" ∧ hours12 12 = "0"
      ∧ hours12 13 = "1" ∧ hours122 13 = "01" ∧ hours12 23 = "11" := by
  decide

/-- **C1**: `iso8601` interleaves the literal segments
`"", "-", "-", "T", ":", ":", "Z"` with `year4, month2, day2, hours2,
minutes2, floorSeconds2`, yielding `YYYY-MM-DDThh:mm:ssZ` with the seconds
truncated (floored) to the whole second; at
`{year 2021, month 5, day 1, hours 11, minutes 58, seconds 27.239}` it
returns `"2021-05-01T11:58:27Z"`, and at
`{year 10000, month 1, day 1, hours 0, minutes 0, seconds 0}` it returns
`"10000-01-01T00:00:00Z"` (the 5-digit year is not truncated). -/
theorem iso8601_isoTemplate :
    (∀ ts : Timestamp,
        iso8601 ts = year4 ts.year ++ "-" ++ month2 ts.month ++ "-" ++ day2 ts.day ++ "T"
          ++ hours2 ts.hours ++ ":" ++ minutes2 ts.minutes ++ ":" ++ floorSeconds2 ts.seconds
          ++ "Z")
      ∧ iso8601 ⟨2021, 5, 1, 11, 58, 27.239⟩ = "2021-05-01T11:58:27Z"
      ∧ iso8601 ⟨10000, 1, 1, 0, 0, 0⟩ = "10000-01-01T00:00:00Z" := by
  have gen : ∀ ts : Timestamp,
      iso8601 ts = year4 ts.year ++ "-" ++ month2 ts.month ++ "-" ++ day2 ts.day ++ "T"
        ++ hours2 ts.hours ++ ":" ++ minutes2 ts.minutes ++ ":" ++ floorSeconds2 ts.seconds
        ++ "Z" := by
    intro ts
    unfold iso8601
    rw [timestampTemplate_eq_interleaveOpt]
    simp [interleaveOpt, String.append_assoc, String.empty_append, String.append_empty]
  refine ⟨gen, ?_, ?_⟩
  · rw [gen]
    have h27 : (⌊(27.239 : ℚ)⌋ : ℤ) = 27 := by norm_num
    show year4 2021 ++ "-" ++ month2 5 ++ "-" ++ day2 1 ++ "T" ++ hours2 11 ++ ":"
      ++ minutes2 58 ++ ":" ++ floorSeconds2 27.239 ++ "Z" = _
    unfold floorSeconds2
    rw [h27]
    decide
  · rw [gen]
    have h0 : (⌊(0 : ℚ)⌋ : ℤ) = 0 := by norm_num
    show year4 10000 ++ "-" ++ month2 1 ++ "-" ++ day2 1 ++ "T" ++ hours2 0 ++ ":"
      ++ minutes2 0 ++ ":" ++ floorSeconds2 0 ++ "Z" = _
    unfold floorSeconds2
    rw [h0]
    decide

/-- **C2**: for `0 ≤ s < 60`, `secondsMs` computes `⌊s * 1000⌋`, zero-pads
it to 5 digits and returns the first two digits, a literal `.`, and the
remaining three digits -- equivalently, the 2-digit-padded decimal of
`⌊s * 1000⌋ / 1000` followed by `.` and the 3-digit-padded decimal of
`⌊s * 1000⌋ % 1000`.  Truncation is downward (floor), never rounding. -/
theorem secondsMs_floor_split (s : ℚ) (h0 : 0 ≤ s) (h1 : s < 60) :
    secondsMs s
      = padStart (Nat.repr ((⌊s * 1000⌋).toNat / 1000)) 2 '0' ++ "."
        ++ padStart (Nat.repr ((⌊s * 1000⌋).toNat % 1000)) 3 '0' := by
  have hfl : 0 ≤ ⌊s * 1000⌋ := Int.floor_nonneg.mpr (by positivity)
  have hfl2 : ⌊s * 1000⌋ < 60000 := by
    rw [Int.floor_lt]
    push_cast
    linarith
  have hdivlt : (⌊s * 1000⌋).toNat / 1000 < 10 ^ 2 := by
    rw [Nat.div_lt_iff_lt_mul (by norm_num : (0:ℕ) < 1000)]
    norm_num
    omega
  have hmodlt : (⌊s * 1000⌋).toNat % 1000 < 10 ^ 3 := by
    have := Nat.mod_lt (⌊s * 1000⌋).toNat (show 0 < 1000 by norm_num)
    norm_num
    omega
  rw [secondsMs_split s h0 (by linarith)]
  have e2 : padStart (Nat.repr ((⌊s * 1000⌋).toNat / 1000)) 2 '0'
      = (⟨padDigits 2 ((⌊s * 1000⌋).toNat / 1000)⟩ : String) := by
    show (⟨(Nat.repr ((⌊s * 1000⌋).toNat / 1000)).data.leftpad 2 '0'⟩ : String) = _
    rw [repr_leftpad (by norm_num) hdivlt]
  have e3 : padStart (Nat.repr ((⌊s * 1000⌋).toNat % 1000)) 3 '0'
      = (⟨padDigits 3 ((⌊s * 1000⌋).toNat % 1000)⟩ : String) := by
    show (⟨(Nat.repr ((⌊s * 1000⌋).toNat % 1000)).data.leftpad 3 '0'⟩ : String) = _
    rw [repr_leftpad (by norm_num) hmodlt]
  rw [e2, e3]

/-- Witness for **C2** at `s = 1.0018`: the product is `1001.8`, floored to
`1001` (not rounded to `1002`), producing `"01.001"`. -/
theorem secondsMs_floor_split_witness :
    (0 : ℚ) ≤ 1.0018 ∧ (1.0018 : ℚ) < 60 ∧ secondsMs 1.0018 = "01.001" := by
  refine ⟨by norm_num, by norm_num, ?_⟩
  rw [secondsMs_floor_split 1.0018 (by norm_num) (by norm_num)]
  rw [show (⌊(1.0018 : ℚ) * 1000⌋ : ℤ) = 1001 by norm_num]
  decide

/-- **C4**: the Local-Time Converter preserves sub-second precision: for any
host calendar primitive that passes the millisecond remainder through
unchanged (as the spec's opaque host contract states) and any normalization
that only carries whole units into higher fields (leaving the fractional
part of `seconds` intact), the localized timestamp's `seconds` has the same
fractional part as the input's. -/
theorem toLocal_preserves_fract (host : JsDateModel) (normalize : Normalizer)
    (hms : ∀ u : UtcFields, (host u).ms = u.ms)
    (hnorm : ∀ t : Timestamp, Int.fract (normalize t).seconds = Int.fract t.seconds)
    (ts : Timestamp) :
    Int.fract (toLocal host normalize ts).seconds = Int.fract ts.seconds := by
  simp only [toLocal, hnorm, hms]
  rw [mul_div_cancel_right₀ _ (by norm_num : (1000 : ℚ) ≠ 0)]
  rw [Int.fract_int_add, Int.self_sub_floor, Int.fract_fract]

/-- Witness for **C4** with a fixed UTC-offset-zero host, the identity
normalization, and a concrete timestamp carrying fractional seconds. -/
theorem toLocal_preserves_fract_witness :
    Int.fract (toLocal
        (fun u => ⟨u.year, u.month0, u.day, u.hours, u.minutes, u.seconds, u.ms⟩)
        (fun t => t) ⟨2021, 5, 1, 11, 58, 27.239⟩).seconds
      = Int.fract (27.239 : ℚ) :=
  toLocal_preserves_fract _ _ (fun u => rfl) (fun t => rfl) ⟨2021, 5, 1, 11, 58, 27.239⟩

/-- **C7**: the local-template composer applied to a timestamp produces the
same string as the plain composer applied to the Local-Time Converter's
output: `deviceLocalTimestampTemplate(texts, …fs)(ts) =
timestampTemplate(texts, …fs)(toLocal(ts))`, for any host and
normalization. -/
theorem deviceLocal_refines_toLocal (host : JsDateModel) (normalize : Normalizer)
    (texts : List String) (formatters : List TimestampFormatter)
    (hlen : texts.length = formatters.length + 1) (ts : Timestamp) :
    deviceLocalTimestampTemplate host normalize texts formatters ts
      = timestampTemplate texts formatters (toLocal host normalize ts) := rfl

/-- Witness for **C7** at a concrete template, host and timestamp. -/
theorem deviceLocal_refines_toLocal_witness :
    deviceLocalTimestampTemplate
        (fun u => ⟨u.year, u.month0, u.day, u.hours, u.minutes, u.seconds, u.ms⟩)
        (fun t => t) ["<", ">"] [fun t => hours2 t.hours] ⟨2021, 5, 1, 11, 58, 27.239⟩
      = timestampTemplate ["<", ">"] [fun t => hours2 t.hours]
          (toLocal (fun u => ⟨u.year, u.month0, u.day, u.hours, u.minutes, u.seconds, u.ms⟩)
            (fun t => t) ⟨2021, 5, 1, 11, 58, 27.239⟩) :=
  deviceLocal_refines_toLocal _ _ ["<", ">"] [fun t => hours2 t.hours] rfl _

/-- **C10**: for every `0 ≤ s < 100` (wider than the documented `s < 60`),
`secondsMs s` is a total computation returning a 6-character string of the
shape two decimal digits, `'.'`, three decimal digits. -/
theorem secondsMs_shape (s : ℚ) (h0 : 0 ≤ s) (h1 : s < 100) :
    (secondsMs s).length = 6 ∧
      ∃ a b : List Char, (secondsMs s).data = a ++ '.' :: b ∧ a.length = 2 ∧ b.length = 3 ∧
        (∀ c ∈ a, c.isDigit = true) ∧ (∀ c ∈ b, c.isDigit = true) := by
  have hdata : (secondsMs s).data
      = padDigits 2 ((⌊s * 1000⌋).toNat / 1000) ++ '.' :: padDigits 3 ((⌊s * 1000⌋).toNat % 1000) := by
    rw [secondsMs_split s h0 h1]
    rw [String.data_append, String.data_append]
    rw [List.append_assoc]
    rfl
  constructor
  · show (secondsMs s).data.length = 6
    rw [hdata]
    simp [padDigits_length]
  · exact ⟨padDigits 2 ((⌊s * 1000⌋).toNat / 1000), padDigits 3 ((⌊s * 1000⌋).toNat % 1000),
      hdata, padDigits_length 2 _, padDigits_length 3 _,
      padDigits_all_digits 2 _, padDigits_all_digits 3 _⟩

/-- Witness for **C10** at `s = 75.5`, which is outside the documented
domain `[0, 60)` but inside the claimed one. -/
theorem secondsMs_shape_witness :
    (0 : ℚ) ≤ 75.5 ∧ (75.5 : ℚ) < 100 ∧
      ((secondsMs 75.5).length = 6 ∧
        ∃ a b : List Char, (secondsMs 75.5).data = a ++ '.' :: b ∧ a.length = 2 ∧ b.length = 3 ∧
          (∀ c ∈ a, c.isDigit = true) ∧ (∀ c ∈ b, c.isDigit = true)) :=
  ⟨by norm_num, by norm_num, secondsMs_shape 75.5 (by norm_num) (by norm_num)⟩

end FormatTimestamp
